import Mathlib

/-!
Shallow embedding of the snake-game core (src/snake.rs and src/game.rs).

Conventions of the embedding:
* Rust `i32` grid coordinates are modelled as `Int` (no overflow occurs in
  the claims considered; all arithmetic is small).
* Rust `f64` times (`waiting_time`, `delta_time`) are modelled as exact
  rationals `ℚ`; the additions and comparisons performed by the code on the
  concrete inputs of the claims are exact in `f64` as well.
* `LinkedList<Block>` is modelled as `List Block` (front = head of list).
* Rust `unwrap()` on a missing value (a panic) is modelled by returning
  `none`: every operation that can panic returns an `Option`.
* `thread_rng` sampling in `add_food` is modelled by an explicit stream of
  candidate cells, consumed in order by the rejection loop; an exhausted
  stream yields `none` (the loop would keep sampling).
-/

namespace SnakeGame

/-- Represents the possible directions the snake can move (src/snake.rs). -/
inductive Direction : Type where
  | up : Direction
  | down : Direction
  | left : Direction
  | right : Direction
deriving DecidableEq

/-- Returns the opposite direction (src/snake.rs, `Direction::opposite`). -/
def Direction.opposite : Direction → Direction
  | Direction.up => Direction.down
  | Direction.down => Direction.up
  | Direction.left => Direction.right
  | Direction.right => Direction.left

/-- Represents one grid cell of the snake body (src/snake.rs, `struct Block`). -/
structure Block : Type where
  x : Int
  y : Int
deriving DecidableEq

/-- Represents the snake (src/snake.rs, `struct Snake`): current heading, the
body front-to-back (front = head), and the most recently popped tail block. -/
structure Snake : Type where
  direction : Direction
  body : List Block
  tail : Option Block
deriving DecidableEq

/-- Creates a new snake instance starting at the given coordinates
(src/snake.rs, `Snake::new`): body `[(x+2,y), (x+1,y), (x,y)]`, heading right,
no stored tail. -/
def Snake.new (x y : Int) : Snake :=
  { direction := Direction.right
    body := [{ x := x + 2, y := y }, { x := x + 1, y := y }, { x := x, y := y }]
    tail := none }

/-- Returns the position of the snake's head (src/snake.rs,
`Snake::head_position`); the Rust code unwraps `body.front()`, modelled as
`none` on an empty body. -/
def Snake.head_position (s : Snake) : Option (Int × Int) :=
  s.body.head?.map fun b => (b.x, b.y)

/-- Returns the current direction of the snake's head (src/snake.rs,
`Snake::head_direction`). -/
def Snake.head_direction (s : Snake) : Direction :=
  s.direction

/-- Calculates the next position of the snake's head (src/snake.rs,
`Snake::next_head`): uses `dir` if provided, else the current heading. -/
def Snake.next_head (s : Snake) (dir : Option Direction) : Option (Int × Int) :=
  match s.head_position with
  | none => none
  | some (head_x, head_y) =>
    let moving_dir := dir.getD s.direction
    match moving_dir with
    | Direction.up => some (head_x, head_y - 1)
    | Direction.down => some (head_x, head_y + 1)
    | Direction.left => some (head_x - 1, head_y)
    | Direction.right => some (head_x + 1, head_y)

/-- Moves the snake forward (src/snake.rs, `Snake::move_forward`): overwrites
the heading if `dir` is given, pushes the new head block to the front, pops
the back block and stores it in `tail`. The two Rust unwraps are modelled as
`none`. -/
def Snake.move_forward (s : Snake) (dir : Option Direction) : Option Snake :=
  let d := dir.getD s.direction
  match s.head_position with
  | none => none
  | some (last_x, last_y) =>
    let new_block : Block :=
      match d with
      | Direction.up => { x := last_x, y := last_y - 1 }
      | Direction.down => { x := last_x, y := last_y + 1 }
      | Direction.left => { x := last_x - 1, y := last_y }
      | Direction.right => { x := last_x + 1, y := last_y }
    let body2 := new_block :: s.body
    match body2.getLast? with
    | none => none
    | some removed_block =>
      some { direction := d, body := body2.dropLast, tail := some removed_block }

/-- Restores the snake's tail (src/snake.rs, `Snake::restore_tail`): appends
the stored `tail` block at the back; the Rust `unwrap` on a missing stored
tail is modelled as `none`. -/
def Snake.restore_tail (s : Snake) : Option Snake :=
  match s.tail with
  | none => none
  | some blk => some { s with body := s.body ++ [blk] }

/-- Loop body of `Snake::overlap_tail` (src/snake.rs): walks the body with a
counter `ch`, returning true on a coordinate match and breaking (returning
false) once `ch` reaches `len - 1` after an unsuccessful check, where `len`
is the total body length. -/
def overlapGo (x y : Int) (len : Nat) : List Block → Nat → Bool
  | [], _ => false
  | b :: rest, ch =>
    if x == b.x && y == b.y then true
    else if ch + 1 == len - 1 then false
    else overlapGo x y len rest (ch + 1)

/-- Checks whether `(x, y)` overlaps the snake's body (src/snake.rs,
`Snake::overlap_tail`): the loop examines body blocks in order and stops
early so that the last block is skipped (when the body has at least two
blocks). -/
def Snake.overlap_tail (s : Snake) (x y : Int) : Bool :=
  overlapGo x y s.body.length s.body 0

/-- Represents a key event fed to `Game::key_pressed` (src/game.rs): the four
arrow keys, and one symbol for every other key. -/
inductive Key : Type where
  | up : Key
  | down : Key
  | left : Key
  | right : Key
  | other : Key
deriving DecidableEq

/-- Snake movement period in time units (src/game.rs, `MOVING_PERIOD = 0.1`). -/
def MOVING_PERIOD : ℚ := 1 / 10

/-- Delay before an automatic restart after game over (src/game.rs,
`RESTART_TIME = 1.0`). -/
def RESTART_TIME : ℚ := 1

/-- Represents the game state (src/game.rs, `struct Game`). -/
structure Game : Type where
  snake : Snake
  food_exists : Bool
  food_x : Int
  food_y : Int
  width : Int
  height : Int
  game_over : Bool
  waiting_time : ℚ
deriving DecidableEq

/-- Creates a new game instance (src/game.rs, `Game::new`): snake at (2,2),
food present at (6,4), not over, zero waiting time. -/
def Game.new (width height : Int) : Game :=
  { snake := Snake.new 2 2
    waiting_time := 0
    food_exists := true
    food_x := 6
    food_y := 4
    width := width
    height := height
    game_over := false }

/-- Checks if the snake stays alive when moving toward `dir` (src/game.rs,
`Game::check_if_snake_alive`): false on a body overlap (per `overlap_tail`)
or when the next head leaves the open interior of the arena. -/
def Game.check_if_snake_alive (g : Game) (dir : Option Direction) : Option Bool :=
  match g.snake.next_head dir with
  | none => none
  | some (next_x, next_y) =>
    if g.snake.overlap_tail next_x next_y then some false
    else
      some (decide (next_x > 0) && decide (next_y > 0) &&
            decide (next_x < g.width - 1) && decide (next_y < g.height - 1))

/-- Checks if the snake's head is at the food cell (src/game.rs,
`Game::check_eating`): if food exists there, clears `food_exists` and grows
the snake via `restore_tail`. -/
def Game.check_eating (g : Game) : Option Game :=
  match g.snake.head_position with
  | none => none
  | some (head_x, head_y) =>
    if g.food_exists && g.food_x == head_x && g.food_y == head_y then
      match g.snake.restore_tail with
      | none => none
      | some s2 => some { g with food_exists := false, snake := s2 }
    else some g

/-- Commits one snake update (src/game.rs, `Game::update_snake`): moves and
checks eating when the alive-check passes, else sets `game_over`; always
resets `waiting_time` to 0. -/
def Game.update_snake (g : Game) (dir : Option Direction) : Option Game :=
  match g.check_if_snake_alive dir with
  | none => none
  | some true =>
    match g.snake.move_forward dir with
    | none => none
    | some s2 =>
      match Game.check_eating { g with snake := s2 } with
      | none => none
      | some g2 => some { g2 with waiting_time := 0 }
  | some false => some { g with game_over := true, waiting_time := 0 }

/-- Handles a key press (src/game.rs, `Game::key_pressed`): no-op when the
game is over; maps arrow keys to directions and any other key to the current
heading; discards the input when it is the exact opposite of the heading;
otherwise commits an immediate snake update. -/
def Game.key_pressed (g : Game) (key : Key) : Option Game :=
  if g.game_over then some g
  else
    let dir : Option Direction :=
      match key with
      | Key.up => some Direction.up
      | Key.down => some Direction.down
      | Key.left => some Direction.left
      | Key.right => some Direction.right
      | Key.other => some g.snake.head_direction
    match dir with
    | some d =>
      if d = g.snake.head_direction.opposite then some g
      else g.update_snake dir
    | none => g.update_snake dir

/-- Rejection loop of `Game::add_food` (src/game.rs): consumes sampled cells
in order until one does not overlap the snake body; `none` when the stream
runs out. -/
def pickFood (s : Snake) : List (Int × Int) → Option (Int × Int)
  | [] => none
  | (nx, ny) :: rest => if s.overlap_tail nx ny then pickFood s rest else some (nx, ny)

/-- Places new food (src/game.rs, `Game::add_food`), with the random draws of
`thread_rng` supplied as the explicit stream `samples`. -/
def Game.add_food (g : Game) (samples : List (Int × Int)) : Option Game :=
  match pickFood g.snake samples with
  | none => none
  | some (new_x, new_y) =>
    some { g with food_x := new_x, food_y := new_y, food_exists := true }

/-- Resets the game after a game over (src/game.rs, `Game::restart`): fresh
snake at (2,2), zero waiting time, food back at (6,4), game no longer over. -/
def Game.restart (g : Game) : Game :=
  { g with
    snake := Snake.new 2 2
    waiting_time := 0
    food_exists := true
    food_x := 6
    food_y := 4
    game_over := false }

/-- Advances the game by `delta_time` (src/game.rs, `Game::update`):
accumulates the waiting time; when over, restarts once it exceeds
`RESTART_TIME`; otherwise replenishes food if needed and performs a snake
update once the waiting time exceeds `MOVING_PERIOD`. -/
def Game.update (g : Game) (delta_time : ℚ) (samples : List (Int × Int)) : Option Game :=
  let g1 := { g with waiting_time := g.waiting_time + delta_time }
  if g1.game_over then
    if g1.waiting_time > RESTART_TIME then some g1.restart else some g1
  else
    match (if g1.food_exists then some g1 else g1.add_food samples) with
    | none => none
    | some g2 =>
      if g2.waiting_time > MOVING_PERIOD then g2.update_snake none else some g2

/-- Runs `Game.update` over a list of time deltas, with an empty sample
stream for `add_food` (so a successful run never needed to place food). -/
def Game.updateSeq (g : Game) : List ℚ → Option Game
  | [] => some g
  | d :: ds =>
    match g.update d [] with
    | none => none
    | some g2 => g2.updateSeq ds

/-- Candidate direction that `Game::key_pressed` derives from a key
(src/game.rs): arrow keys map to their direction, every other key to the
snake's current heading. -/
def keyCandidate (g : Game) (key : Key) : Direction :=
  match key with
  | Key.up => Direction.up
  | Key.down => Direction.down
  | Key.left => Direction.left
  | Key.right => Direction.right
  | Key.other => g.snake.head_direction

/-- One mutating snake operation, used to state which snake values are
reachable through the public mutators of `Snake`. -/
inductive SnakeOp : Type where
  | move : Option Direction → SnakeOp
  | restore : SnakeOp

/-- Applies one operation to a snake: `move_forward` or `restore_tail`. -/
def Snake.applyOp (s : Snake) : SnakeOp → Option Snake
  | SnakeOp.move d => s.move_forward d
  | SnakeOp.restore => s.restore_tail

/-- Runs a list of snake operations in order, failing when one fails. -/
def runOps (s : Snake) : List SnakeOp → Option Snake
  | [] => some s
  | op :: ops =>
    match s.applyOp op with
    | none => none
    | some s2 => runOps s2 ops

/-- Reachability of a snake value from some `Snake.new x y` by a sequence of
`move_forward` and `restore_tail` calls. -/
def Snake.Reachable (s : Snake) : Prop :=
  ∃ x y ops, runOps (Snake.new x y) ops = some s

/-- Concrete game used as an eating-scenario input: the snake has just moved
right onto the food cell (5,2) and the popped tail (2,2) is stored. -/
def eatingGame : Game :=
  Game.mk
    (Snake.mk Direction.right [Block.mk 5 2, Block.mk 4 2, Block.mk 3 2]
      (some (Block.mk 2 2)))
    true 5 2 20 20 false 0

/-- Concrete game state in the game-over phase, used as a restart-scenario
input. -/
def overGame : Game :=
  { Game.new 20 20 with game_over := true }

/-- Builder for the intermediate states of the timing scenario: a 20 by 20
game with food at (6,4), not over, with the given snake and waiting time. -/
def midGame (s : Snake) (wt : ℚ) : Game :=
  Game.mk s true 6 4 20 20 false wt

/-- Pushing a block on a nonempty list does not change its last element. -/
theorem List_getLast?_cons_ne {α : Type} (a : α) {l : List α} (h : l ≠ []) :
    (a :: l).getLast? = l.getLast? := by
  cases l with
  | nil => exact absurd rfl h
  | cons b t => exact List.getLast?_cons_cons

/-- Full characterization of `Snake.move_forward` on a nonempty body: it
succeeds, the new head is the cell `next_head` computes, the heading becomes
`dir` when given, the old back block is popped into `tail`, and the body
length is conserved. -/
theorem move_forward_spec (s : Snake) (dir : Option Direction) (h : s.body ≠ []) :
    ∃ s2 nb t, s.move_forward dir = some s2 ∧
      s.next_head dir = some (nb.x, nb.y) ∧
      s2.direction = dir.getD s.direction ∧
      s2.body = nb :: s.body.dropLast ∧
      s.body.getLast? = some t ∧
      s2.tail = some t ∧
      s2.body.length = s.body.length := by
  obtain ⟨hb, rest, hcons⟩ := List.exists_cons_of_ne_nil h
  have hhead : s.head_position = some (hb.x, hb.y) := by
    simp [Snake.head_position, hcons]
  have hgl : s.body.getLast? = some (s.body.getLast h) := List.getLast?_eq_getLast s.body h
  have hlen : 1 ≤ s.body.length := by
    rw [hcons]; simp
  cases hd : dir.getD s.direction with
  | up =>
    refine ⟨{ direction := Direction.up,
              body := { x := hb.x, y := hb.y - 1 } :: s.body.dropLast,
              tail := some (s.body.getLast h) },
            { x := hb.x, y := hb.y - 1 }, s.body.getLast h, ?_, ?_, ?_, rfl, hgl, rfl, ?_⟩
    · simp [Snake.move_forward, hhead, hd, List_getLast?_cons_ne _ h, hgl,
        List.dropLast_cons_of_ne_nil h]
    · simp [Snake.next_head, hhead, hd]
    · rfl
    · simp [List.length_dropLast]; omega
  | down =>
    refine ⟨{ direction := Direction.down,
              body := { x := hb.x, y := hb.y + 1 } :: s.body.dropLast,
              tail := some (s.body.getLast h) },
            { x := hb.x, y := hb.y + 1 }, s.body.getLast h, ?_, ?_, ?_, rfl, hgl, rfl, ?_⟩
    · simp [Snake.move_forward, hhead, hd, List_getLast?_cons_ne _ h, hgl,
        List.dropLast_cons_of_ne_nil h]
    · simp [Snake.next_head, hhead, hd]
    · rfl
    · simp [List.length_dropLast]; omega
  | left =>
    refine ⟨{ direction := Direction.left,
              body := { x := hb.x - 1, y := hb.y } :: s.body.dropLast,
              tail := some (s.body.getLast h) },
            { x := hb.x - 1, y := hb.y }, s.body.getLast h, ?_, ?_, ?_, rfl, hgl, rfl, ?_⟩
    · simp [Snake.move_forward, hhead, hd, List_getLast?_cons_ne _ h, hgl,
        List.dropLast_cons_of_ne_nil h]
    · simp [Snake.next_head, hhead, hd]
    · rfl
    · simp [List.length_dropLast]; omega
  | right =>
    refine ⟨{ direction := Direction.right,
              body := { x := hb.x + 1, y := hb.y } :: s.body.dropLast,
              tail := some (s.body.getLast h) },
            { x := hb.x + 1, y := hb.y }, s.body.getLast h, ?_, ?_, ?_, rfl, hgl, rfl, ?_⟩
    · simp [Snake.move_forward, hhead, hd, List_getLast?_cons_ne _ h, hgl,
        List.dropLast_cons_of_ne_nil h]
    · simp [Snake.next_head, hhead, hd]
    · rfl
    · simp [List.length_dropLast]; omega

/-- The body-walking loop of `overlap_tail` examines exactly the prefix of
the remaining blocks that ends right before the body's last block, provided
the counter is at least two steps away from the break point. -/
theorem overlapGo_eq_take (x y : Int) (len : Nat) :
    ∀ (l : List Block) (ch : Nat), ch + l.length = len → ch + 2 ≤ len →
      overlapGo x y len l ch =
        (l.take (len - 1 - ch)).any (fun b => x == b.x && y == b.y) := by
  intro l
  induction l with
  | nil =>
    intro ch h1 h2
    simp only [List.length_nil, Nat.add_zero] at h1
    omega
  | cons b rest ih =>
    intro ch h1 h2
    have htake : len - 1 - ch = (len - 2 - ch) + 1 := by omega
    rw [htake, List.take_succ_cons, List.any_cons]
    simp only [overlapGo]
    cases hpb : (x == b.x && y == b.y) with
    | true => simp [hpb]
    | false =>
      by_cases hbr : ch + 1 = len - 1
      · have h0 : len - 2 - ch = 0 := by omega
        simp [hbr, h0]
      · have hbr2 : (ch + 1 == len - 1) = false := by
          simp [hbr]
        have hlen2 : (ch + 1) + rest.length = len := by
          simp only [List.length_cons] at h1; omega
        have hch2 : (ch + 1) + 2 ≤ len := by omega
        have hidx : len - 1 - (ch + 1) = len - 2 - ch := by omega
        rw [hbr2, if_neg (by simp), ih (ch + 1) hlen2 hch2, hidx]
        simp

/-- On a body of at least two blocks, `overlap_tail` checks exactly the body
without its last block. -/
theorem overlap_tail_eq_dropLast (s : Snake) (x y : Int) (h2 : 2 ≤ s.body.length) :
    s.overlap_tail x y = s.body.dropLast.any (fun b => x == b.x && y == b.y) := by
  have h1 : 0 + s.body.length = s.body.length := by omega
  have h2' : 0 + 2 ≤ s.body.length := by omega
  rw [Snake.overlap_tail, overlapGo_eq_take x y s.body.length s.body 0 h1 h2']
  rw [List.dropLast_eq_take]
  norm_num

/-- C1: for every game state (with the nonempty body that `next_head`'s
unwrap requires) and every optional direction, `check_if_snake_alive dir`
returns some boolean that is false exactly when the cell `next_head dir`
overlaps the body per `overlap_tail` or lies outside the open interior
`1 ≤ x < width - 1`, `1 ≤ y < height - 1`; in all other cases it is true. -/
theorem c1_check_if_snake_alive_iff (g : Game) (dir : Option Direction)
    (h : g.snake.body ≠ []) :
    ∃ nx ny b, g.snake.next_head dir = some (nx, ny) ∧
      g.check_if_snake_alive dir = some b ∧
      (b = false ↔ (g.snake.overlap_tail nx ny = true ∨
        ¬(1 ≤ nx ∧ nx < g.width - 1 ∧ 1 ≤ ny ∧ ny < g.height - 1))) := by
  obtain ⟨s2, nb, t, _, hnh, _⟩ := move_forward_spec g.snake dir h
  by_cases hov : g.snake.overlap_tail nb.x nb.y = true
  · exact ⟨nb.x, nb.y, false, hnh, by simp [Game.check_if_snake_alive, hnh, hov],
      by simp [hov]⟩
  · refine ⟨nb.x, nb.y,
      decide (nb.x > 0) && decide (nb.y > 0) &&
        decide (nb.x < g.width - 1) && decide (nb.y < g.height - 1),
      hnh, by simp [Game.check_if_snake_alive, hnh, hov], ?_⟩
    rw [Bool.not_eq_true] at hov
    simp only [hov, Bool.false_eq_true, false_or]
    constructor
    · intro hb
      simp only [Bool.and_eq_false_iff, decide_eq_false_iff_not, not_lt] at hb
      omega
    · intro hb
      simp only [Bool.and_eq_false_iff, decide_eq_false_iff_not, not_lt]
      omega

/-- Witness for C1 at the fresh 20 by 20 game and no direction override. -/
theorem c1_witness : ∃ nx ny b,
    (Game.new 20 20).snake.next_head none = some (nx, ny) ∧
    (Game.new 20 20).check_if_snake_alive none = some b ∧
    (b = false ↔ ((Game.new 20 20).snake.overlap_tail nx ny = true ∨
      ¬(1 ≤ nx ∧ nx < (Game.new 20 20).width - 1 ∧ 1 ≤ ny ∧
        ny < (Game.new 20 20).height - 1))) :=
  c1_check_if_snake_alive_iff (Game.new 20 20) none (by decide)

/-- C2 counterexample: on a snake whose body is the single block (0,0) the
claim fails: the body excluding its last cell is empty, so the claim
predicts `overlap_tail 0 0 = false`, but the code returns true (the loop's
early break never fires on a one-block body). -/
theorem c2_counterexample :
    (Snake.mk Direction.right [Block.mk 0 0] none).body ≠ [] ∧
    (Snake.mk Direction.right [Block.mk 0 0] none).overlap_tail 0 0 = true ∧
    ¬ ∃ b ∈ (Snake.mk Direction.right [Block.mk 0 0] none).body.dropLast,
        b.x = 0 ∧ b.y = 0 := by
  decide

/-- C2 (amended): for every snake whose body has at least two cells,
`overlap_tail (x,y)` is true exactly when (x,y) equals one of the body cells
excluding the last cell (the head included); on a one-cell body the single
cell itself is checked. On a freshly constructed `Snake.new x y` it returns
true for (x+2,y) and (x+1,y), false for (x,y), and false for every cell
outside the body. -/
theorem c2_overlap_tail_amended :
    (∀ (s : Snake) (x y : Int), 2 ≤ s.body.length →
      (s.overlap_tail x y = true ↔ ∃ b ∈ s.body.dropLast, b.x = x ∧ b.y = y)) ∧
    (∀ (d : Direction) (b : Block) (t : Option Block) (x y : Int),
      (Snake.mk d [b] t).overlap_tail x y = (x == b.x && y == b.y)) ∧
    (∀ x y : Int,
      (Snake.new x y).overlap_tail (x + 2) y = true ∧
      (Snake.new x y).overlap_tail (x + 1) y = true ∧
      (Snake.new x y).overlap_tail x y = false ∧
      ∀ a b : Int, (∀ c ∈ (Snake.new x y).body, ¬(c.x = a ∧ c.y = b)) →
        (Snake.new x y).overlap_tail a b = false) := by
  have main : ∀ (s : Snake) (x y : Int), 2 ≤ s.body.length →
      (s.overlap_tail x y = true ↔ ∃ b ∈ s.body.dropLast, b.x = x ∧ b.y = y) := by
    intro s x y h2
    rw [overlap_tail_eq_dropLast s x y h2, List.any_eq_true]
    constructor
    · rintro ⟨b, hb, hpb⟩
      simp only [Bool.and_eq_true, beq_iff_eq] at hpb
      exact ⟨b, hb, hpb.1.symm, hpb.2.symm⟩
    · rintro ⟨b, hb, hbx, hby⟩
      exact ⟨b, hb, by simp [hbx, hby]⟩
  refine ⟨main, ?_, ?_⟩
  · intro d b t x y
    cases hpb : (x == b.x && y == b.y) <;>
      simp [Snake.overlap_tail, overlapGo, hpb]
  · intro x y
    have hlen : 2 ≤ (Snake.new x y).body.length := by simp [Snake.new]
    have hdl : (Snake.new x y).body.dropLast =
        [{ x := x + 2, y := y }, { x := x + 1, y := y }] := by
      simp [Snake.new]
    refine ⟨?_, ?_, ?_, ?_⟩
    · rw [main _ _ _ hlen, hdl]; exact ⟨{ x := x + 2, y := y }, by simp, rfl, rfl⟩
    · rw [main _ _ _ hlen, hdl]; exact ⟨{ x := x + 1, y := y }, by simp, rfl, rfl⟩
    · have hiff := main (Snake.new x y) x y hlen
      rw [hdl] at hiff
      rw [Bool.eq_false_iff, Ne, hiff]
      rintro ⟨b, hb, hbx, hby⟩
      simp only [List.mem_cons, List.not_mem_nil, or_false] at hb
      rcases hb with hb | hb <;> subst hb <;> simp at hbx
    · intro a b hout
      have hiff := main (Snake.new x y) a b hlen
      rw [Bool.eq_false_iff, Ne, hiff]
      rintro ⟨c, hc, hcx, hcy⟩
      exact hout c (List.dropLast_subset _ hc) ⟨hcx, hcy⟩

/-- Witness for C2 (amended) at the fresh snake at (0,0) and its head cell. -/
theorem c2_witness :
    ((Snake.new 0 0).overlap_tail 2 0 = true ↔
      ∃ b ∈ (Snake.new 0 0).body.dropLast, b.x = 2 ∧ b.y = 0) :=
  c2_overlap_tail_amended.1 (Snake.new 0 0) 2 0 (by decide)

/-- C5: on a nonempty body, `move_forward dir` adds exactly one cell at the
front — obtained from the old head by the mapping Up to (x, y-1), Down to
(x, y+1), Left to (x-1, y), Right to (x+1, y), the same cell `next_head dir`
returns — removes exactly one cell at the back, stores the removed cell in
`tail`, and conserves the body length; on a fresh snake one
`move_forward none` puts the head at (x+3, y) with the length still 3. -/
theorem c5_move_forward_shift :
    (∀ (s : Snake) (dir : Option Direction) (hx hy : Int),
      s.head_position = some (hx, hy) →
      ∃ s2 nb t,
        s.move_forward dir = some s2 ∧
        s.next_head dir = some (nb.x, nb.y) ∧
        ((dir.getD s.direction = Direction.up → nb = { x := hx, y := hy - 1 }) ∧
         (dir.getD s.direction = Direction.down → nb = { x := hx, y := hy + 1 }) ∧
         (dir.getD s.direction = Direction.left → nb = { x := hx - 1, y := hy }) ∧
         (dir.getD s.direction = Direction.right → nb = { x := hx + 1, y := hy })) ∧
        s2.body = nb :: s.body.dropLast ∧
        s.body.getLast? = some t ∧
        s2.tail = some t ∧
        s2.body.length = s.body.length) ∧
    (∀ x y : Int, ∃ s2, (Snake.new x y).move_forward none = some s2 ∧
      s2.head_position = some (x + 3, y) ∧ s2.body.length = 3) := by
  constructor
  · intro s dir hx hy hhead
    have hne : s.body ≠ [] := by
      cases hb : s.body with
      | nil => rw [Snake.head_position, hb] at hhead; simp at hhead
      | cons a l => simp [hb]
    obtain ⟨s2, nb, t, hmf, hnh, hdir, hbody, hgl, htail, hlen⟩ :=
      move_forward_spec s dir hne
    obtain ⟨a, b⟩ := nb
    refine ⟨s2, ⟨a, b⟩, t, hmf, hnh, ⟨?_, ?_, ?_, ?_⟩, hbody, hgl, htail, hlen⟩ <;>
      intro hd
    · have hcalc : s.next_head dir = some (hx, hy - 1) := by
        simp [Snake.next_head, hhead, hd]
      have h2 := hcalc.symm.trans hnh
      simp only [Option.some.injEq, Prod.mk.injEq] at h2
      simp [Block.mk.injEq, h2.1, h2.2]
    · have hcalc : s.next_head dir = some (hx, hy + 1) := by
        simp [Snake.next_head, hhead, hd]
      have h2 := hcalc.symm.trans hnh
      simp only [Option.some.injEq, Prod.mk.injEq] at h2
      simp [Block.mk.injEq, h2.1, h2.2]
    · have hcalc : s.next_head dir = some (hx - 1, hy) := by
        simp [Snake.next_head, hhead, hd]
      have h2 := hcalc.symm.trans hnh
      simp only [Option.some.injEq, Prod.mk.injEq] at h2
      simp [Block.mk.injEq, h2.1, h2.2]
    · have hcalc : s.next_head dir = some (hx + 1, hy) := by
        simp [Snake.next_head, hhead, hd]
      have h2 := hcalc.symm.trans hnh
      simp only [Option.some.injEq, Prod.mk.injEq] at h2
      simp [Block.mk.injEq, h2.1, h2.2]
  · intro x y
    refine ⟨{ direction := Direction.right,
              body := [{ x := x + 2 + 1, y := y }, { x := x + 2, y := y },
                       { x := x + 1, y := y }],
              tail := some { x := x, y := y } }, rfl, ?_, rfl⟩
    show some (x + 2 + 1, y) = some (x + 3, y)
    norm_num
    omega

/-- Witness for C5 at the fresh snake at (0,0), whose head is (2,0). -/
theorem c5_witness :
    ∃ s2 nb t,
      (Snake.new 0 0).move_forward none = some s2 ∧
      (Snake.new 0 0).next_head none = some (nb.x, nb.y) ∧
      ((none.getD (Snake.new 0 0).direction = Direction.up →
          nb = { x := 2, y := (0 : Int) - 1 }) ∧
       (none.getD (Snake.new 0 0).direction = Direction.down →
          nb = { x := 2, y := (0 : Int) + 1 }) ∧
       (none.getD (Snake.new 0 0).direction = Direction.left →
          nb = { x := 2 - 1, y := (0 : Int) }) ∧
       (none.getD (Snake.new 0 0).direction = Direction.right →
          nb = { x := 2 + 1, y := (0 : Int) })) ∧
      s2.body = nb :: (Snake.new 0 0).body.dropLast ∧
      (Snake.new 0 0).body.getLast? = some t ∧
      s2.tail = some t ∧
      s2.body.length = (Snake.new 0 0).body.length :=
  c5_move_forward_shift.1 (Snake.new 0 0) none 2 0 (by decide)

/-- C6: after a successful `move_forward`, `restore_tail` succeeds, appends
exactly the popped cell at the back and grows the body length by one; on a
snake with no stored removed tail — in particular any fresh snake, on which
no move has occurred — `restore_tail` fails (the modelled
PreconditionViolation). -/
theorem c6_restore_tail_spec :
    (∀ (s s2 : Snake) (dir : Option Direction), s.body ≠ [] →
      s.move_forward dir = some s2 →
      ∃ t s3, s.body.getLast? = some t ∧ s2.tail = some t ∧
        s2.restore_tail = some s3 ∧
        s3.body = s2.body ++ [t] ∧
        s3.body.length = s2.body.length + 1) ∧
    (∀ s : Snake, s.tail = none → s.restore_tail = none) ∧
    (∀ x y : Int, (Snake.new x y).tail = none) := by
  refine ⟨?_, ?_, ?_⟩
  · intro s s2 dir hne hmf
    obtain ⟨s2', nb, t, hmf', hnh, hdir, hbody, hgl, htail, hlen⟩ :=
      move_forward_spec s dir hne
    rw [hmf'] at hmf
    injection hmf with hmf
    subst hmf
    refine ⟨t, { s2' with body := s2'.body ++ [t] }, hgl, htail, ?_, rfl, by simp⟩
    simp [Snake.restore_tail, htail]
  · intro s h
    simp [Snake.restore_tail, h]
  · intro x y
    rfl

/-- Witness for C6 at the fresh snake at (0,0) and its first move. -/
theorem c6_witness :
    ∃ t s3,
      (Snake.new 0 0).body.getLast? = some t ∧
      (Snake.mk Direction.right
        [Block.mk 3 0, Block.mk 2 0, Block.mk 1 0] (some (Block.mk 0 0))).tail
          = some t ∧
      (Snake.mk Direction.right
        [Block.mk 3 0, Block.mk 2 0, Block.mk 1 0] (some (Block.mk 0 0))).restore_tail
          = some s3 ∧
      s3.body = (Snake.mk Direction.right
        [Block.mk 3 0, Block.mk 2 0, Block.mk 1 0] (some (Block.mk 0 0))).body ++ [t] ∧
      s3.body.length = (Snake.mk Direction.right
        [Block.mk 3 0, Block.mk 2 0, Block.mk 1 0] (some (Block.mk 0 0))).body.length + 1 :=
  c6_restore_tail_spec.1 (Snake.new 0 0)
    (Snake.mk Direction.right [Block.mk 3 0, Block.mk 2 0, Block.mk 1 0]
      (some (Block.mk 0 0))) none (by decide) (by decide)

/-- Running any successful sequence of snake operations never shrinks the
body below three blocks. -/
theorem runOps_min_length : ∀ (ops : List SnakeOp) (s s2 : Snake),
    runOps s ops = some s2 → 3 ≤ s.body.length → 3 ≤ s2.body.length := by
  intro ops
  induction ops with
  | nil =>
    intro s s2 h h3
    simp only [runOps, Option.some.injEq] at h
    exact h ▸ h3
  | cons op ops ih =>
    intro s s2 h h3
    have hne : s.body ≠ [] := by
      intro hnil
      rw [hnil] at h3
      simp at h3
    cases op with
    | move d =>
      obtain ⟨s', nb, t, hmf, _, _, _, _, _, hlen⟩ := move_forward_spec s d hne
      rw [runOps, Snake.applyOp, hmf] at h
      exact ih s' s2 h (by omega)
    | restore =>
      cases ht : s.tail with
      | none =>
        rw [runOps, Snake.applyOp, Snake.restore_tail, ht] at h
        simp at h
      | some blk =>
        rw [runOps, Snake.applyOp, Snake.restore_tail, ht] at h
        refine ih _ s2 h ?_
        simp
        omega

/-- C10: every snake reachable from `Snake.new` by `move_forward` and
`restore_tail` calls has a body of at least three cells, so the front-cell
extraction in `head_position` and the back-cell pop in `move_forward` never
fail. -/
theorem c10_reachable_safe : ∀ s : Snake, s.Reachable →
    3 ≤ s.body.length ∧ s.head_position.isSome = true ∧
    ∀ dir : Option Direction, (s.move_forward dir).isSome = true := by
  rintro s ⟨x, y, ops, hrun⟩
  have h3 : 3 ≤ s.body.length := runOps_min_length ops _ s hrun (by simp [Snake.new])
  have hne : s.body ≠ [] := by
    intro hnil
    rw [hnil] at h3
    simp at h3
  refine ⟨h3, ?_, ?_⟩
  · obtain ⟨hb, rest, hcons⟩ := List.exists_cons_of_ne_nil hne
    simp [Snake.head_position, hcons]
  · intro dir
    obtain ⟨s2, nb, t, hmf, _⟩ := move_forward_spec s dir hne
    rw [hmf]
    rfl

/-- Witness for C10 at the fresh snake at (0,0), reachable by no operation. -/
theorem c10_witness :
    3 ≤ (Snake.new 0 0).body.length ∧
    (Snake.new 0 0).head_position.isSome = true ∧
    ∀ dir : Option Direction, ((Snake.new 0 0).move_forward dir).isSome = true :=
  c10_reachable_safe (Snake.new 0 0) ⟨0, 0, [], rfl⟩

/-- C4: `key_pressed` is a complete no-op when the game is over; when the
candidate direction (arrow key, or the current heading for any other key) is
the exact opposite of the current heading the input is discarded and the
whole state is unchanged; otherwise it commits an immediate snake update
with that direction, i.e. it equals `update_snake` (which resets the waiting
time and runs the alive and eating checks of a normal tick). -/
theorem c4_key_pressed_cases (g : Game) (key : Key) :
    (g.game_over = true → g.key_pressed key = some g) ∧
    (g.game_over = false → keyCandidate g key = g.snake.head_direction.opposite →
      g.key_pressed key = some g) ∧
    (g.game_over = false → keyCandidate g key ≠ g.snake.head_direction.opposite →
      g.key_pressed key = g.update_snake (some (keyCandidate g key))) := by
  refine ⟨?_, ?_, ?_⟩
  · intro h
    simp [Game.key_pressed, h]
  · intro h hopp
    cases key with
    | other =>
      exfalso
      simp only [keyCandidate, Snake.head_direction] at hopp
      cases hdc : g.snake.direction <;> rw [hdc] at hopp <;>
        simp [Direction.opposite] at hopp
    | up => simp_all [Game.key_pressed, keyCandidate]
    | down => simp_all [Game.key_pressed, keyCandidate]
    | left => simp_all [Game.key_pressed, keyCandidate]
    | right => simp_all [Game.key_pressed, keyCandidate]
  · intro h hopp
    cases key <;> simp_all [Game.key_pressed, keyCandidate]

/-- Witness for C4 at the fresh 20 by 20 game (heading right) and the up
arrow key, which is not the opposite of the heading. -/
theorem c4_witness :
    (Game.new 20 20).game_over = false ∧
    keyCandidate (Game.new 20 20) Key.up ≠
      (Game.new 20 20).snake.head_direction.opposite ∧
    (Game.new 20 20).key_pressed Key.up =
      (Game.new 20 20).update_snake (some (keyCandidate (Game.new 20 20) Key.up)) :=
  ⟨rfl, by decide,
    (c4_key_pressed_cases (Game.new 20 20) Key.up).2.2 rfl (by decide)⟩

/-- C8: when food exists and the snake's head (after a move that stored the
popped cell `t`) is exactly on the food cell, `check_eating` clears
`food_exists` and re-appends `t`, growing the body by exactly one; in every
other case it leaves the state completely unchanged. -/
theorem c8_check_eating_spec (g : Game) (hx hy : Int) (t : Block)
    (hhead : g.snake.head_position = some (hx, hy))
    (htail : g.snake.tail = some t) :
    ((g.food_exists = true ∧ g.food_x = hx ∧ g.food_y = hy) →
      g.check_eating = some { g with
        food_exists := false,
        snake := { g.snake with body := g.snake.body ++ [t] } } ∧
      ({ g.snake with body := g.snake.body ++ [t] } : Snake).body.length
        = g.snake.body.length + 1) ∧
    (¬(g.food_exists = true ∧ g.food_x = hx ∧ g.food_y = hy) →
      g.check_eating = some g) := by
  constructor
  · rintro ⟨hf, hfx, hfy⟩
    constructor
    · simp [Game.check_eating, hhead, hf, hfx, hfy, Snake.restore_tail, htail]
    · simp
  · intro hnot
    have hcond : ¬((g.food_exists && (g.food_x == hx) && (g.food_y == hy)) = true) := by
      intro hc
      simp only [Bool.and_eq_true, beq_iff_eq] at hc
      exact hnot ⟨hc.1.1, hc.1.2, hc.2⟩
    simp [Game.check_eating, hhead, hcond]

/-- Witness for C8 at a concrete game whose snake head sits on the food. -/
theorem c8_witness :
    ((eatingGame.food_exists = true ∧ eatingGame.food_x = 5 ∧ eatingGame.food_y = 2) →
      eatingGame.check_eating = some { eatingGame with
        food_exists := false,
        snake := { eatingGame.snake with
          body := eatingGame.snake.body ++ [Block.mk 2 2] } } ∧
      ({ eatingGame.snake with
          body := eatingGame.snake.body ++ [Block.mk 2 2] } : Snake).body.length
        = eatingGame.snake.body.length + 1) ∧
    (¬(eatingGame.food_exists = true ∧ eatingGame.food_x = 5 ∧ eatingGame.food_y = 2) →
      eatingGame.check_eating = some eatingGame) :=
  c8_check_eating_spec eatingGame 5 2 (Block.mk 2 2) (by decide) (by decide)

/-- C9: when the alive-check for `dir` is false, `update_snake dir` sets
`game_over` and resets `waiting_time` to zero while leaving every other
field — snake body, heading, stored tail, food state, and dimensions —
exactly as before. -/
theorem c9_update_snake_dead (g : Game) (dir : Option Direction)
    (h : g.check_if_snake_alive dir = some false) :
    g.update_snake dir = some { g with game_over := true, waiting_time := 0 } := by
  simp [Game.update_snake, h]

/-- Witness for C9 at the fresh 20 by 20 game steered left into its own
neck, which fails the alive check. -/
theorem c9_witness :
    (Game.new 20 20).check_if_snake_alive (some Direction.left) = some false ∧
    (Game.new 20 20).update_snake (some Direction.left) =
      some { Game.new 20 20 with game_over := true, waiting_time := 0 } :=
  ⟨by decide, c9_update_snake_dead (Game.new 20 20) (some Direction.left) (by decide)⟩

/-- Behavior of `update` in the game-over phase when the accumulated time
stays within the restart delay: only the waiting time advances. -/
theorem update_gameover_lt (g : Game) (d : ℚ) (samples : List (Int × Int))
    (hgo : g.game_over = true) (hle : ¬(RESTART_TIME < g.waiting_time + d)) :
    g.update d samples = some { g with waiting_time := g.waiting_time + d } := by
  simp [Game.update, hgo, hle]

/-- Behavior of `update` in the game-over phase once the accumulated time
exceeds the restart delay: the game restarts. -/
theorem update_gameover_restart (g : Game) (d : ℚ) (samples : List (Int × Int))
    (hgo : g.game_over = true) (hgt : RESTART_TIME < g.waiting_time + d) :
    g.update d samples = some g.restart := by
  simp [Game.update, hgo, hgt]
  rfl

/-- Behavior of `update` in the active phase with food present while the
accumulated time stays within the moving period: only the waiting time
advances. -/
theorem update_active_quiet (g : Game) (d : ℚ) (samples : List (Int × Int))
    (hgo : g.game_over = false) (hfood : g.food_exists = true)
    (hle : ¬(MOVING_PERIOD < g.waiting_time + d)) :
    g.update d samples = some { g with waiting_time := g.waiting_time + d } := by
  simp [Game.update, hgo, hfood, hle]

/-- Behavior of `update` in the active phase with food present once the
accumulated time exceeds the moving period: a snake update is committed. -/
theorem update_active_move (g : Game) (d : ℚ) (samples : List (Int × Int))
    (hgo : g.game_over = false) (hfood : g.food_exists = true)
    (hgt : MOVING_PERIOD < g.waiting_time + d) :
    g.update d samples =
      ({ g with waiting_time := g.waiting_time + d }).update_snake none := by
  simp [Game.update, hgo, hfood, hgt]

/-- Food placement changes only the food fields: snake, waiting time and
game-over flag are untouched. -/
theorem add_food_fields (g : Game) (samples : List (Int × Int)) (g2 : Game)
    (h : g.add_food samples = some g2) :
    g2.snake = g.snake ∧ g2.waiting_time = g.waiting_time ∧
      g2.game_over = g.game_over := by
  unfold Game.add_food at h
  cases hp : pickFood g.snake samples with
  | none => rw [hp] at h; simp at h
  | some c =>
    obtain ⟨nx, ny⟩ := c
    rw [hp] at h
    simp only [Option.some.injEq] at h
    subst h
    exact ⟨rfl, rfl, rfl⟩

/-- Behavior of `update` in the active phase with absent food and a
successful food placement, while the accumulated time stays within the
moving period. -/
theorem update_active_nofood_quiet (g : Game) (d : ℚ) (samples : List (Int × Int))
    (g3 : Game) (hgo : g.game_over = false) (hfood : g.food_exists = false)
    (hle : ¬(MOVING_PERIOD < g.waiting_time + d))
    (haf : ({ g with waiting_time := g.waiting_time + d } : Game).add_food samples
      = some g3) :
    g.update d samples = some g3 := by
  have hwt3 := (add_food_fields _ _ _ haf).2.1
  simp only [Game.waiting_time] at hwt3
  simp only [hgo, hfood] at haf
  simp [Game.update, hgo, hfood, haf, hwt3, hle]

/-- Behavior of `update` in the active phase when absent food cannot be
placed from the modelled sample stream. -/
theorem update_active_nofood_none (g : Game) (d : ℚ) (samples : List (Int × Int))
    (hgo : g.game_over = false) (hfood : g.food_exists = false)
    (haf : ({ g with waiting_time := g.waiting_time + d } : Game).add_food samples
      = none) :
    g.update d samples = none := by
  simp only [hgo, hfood] at haf
  simp [Game.update, hgo, hfood, haf]

/-- Iterating `update` from any game-over state restarts the game at the
first step whose accumulated waiting time exceeds the restart delay. -/
theorem restartAux : ∀ (ds : List ℚ) (g : Game), g.game_over = true →
    RESTART_TIME < g.waiting_time + ds.sum → ds ≠ [] →
    ∃ k ≤ ds.length, g.updateSeq (ds.take k) = some g.restart := by
  intro ds
  induction ds with
  | nil => intro g _ _ hne; exact absurd rfl hne
  | cons d rest ih =>
    intro g hgo hsum _
    by_cases hgt : RESTART_TIME < g.waiting_time + d
    · refine ⟨1, by simp, ?_⟩
      have h1 : g.update d [] = some g.restart := update_gameover_restart g d [] hgo hgt
      simp [Game.updateSeq, h1]
    · have h1 : g.update d [] = some { g with waiting_time := g.waiting_time + d } :=
        update_gameover_lt g d [] hgo hgt
      rw [List.sum_cons] at hsum
      have hrest : rest ≠ [] := by
        intro hr
        subst hr
        simp only [List.sum_nil, add_zero] at hsum
        exact hgt hsum
      have hsum1 : RESTART_TIME <
          ({ g with waiting_time := g.waiting_time + d } : Game).waiting_time
            + rest.sum := by
        show RESTART_TIME < g.waiting_time + d + rest.sum
        linarith
      obtain ⟨k, hk, hrun⟩ :=
        ih { g with waiting_time := g.waiting_time + d } hgo hsum1 hrest
      refine ⟨k + 1, by simpa using Nat.succ_le_succ hk, ?_⟩
      rw [List.take_succ_cons]
      show Game.updateSeq g (d :: rest.take k) = some g.restart
      rw [Game.updateSeq, h1]
      exact hrun

/-- C7: from any game-over state with nonnegative accumulated waiting time,
feeding `update` time deltas whose sum exceeds `RESTART_TIME` triggers the
restart at some step: the snake is replaced by a fresh one at the canonical
start (head (4,2), middle (3,2), tail (2,2), heading right), food is back at
the fixed cell (6,4) and flagged present, the waiting time is cleared, the
game is no longer over, and width and height are unchanged. -/
theorem c7_gameover_restart (g : Game) (ds : List ℚ)
    (hgo : g.game_over = true) (hwt : 0 ≤ g.waiting_time)
    (hsum : RESTART_TIME < ds.sum) :
    ∃ k ≤ ds.length,
      g.updateSeq (ds.take k) = some
        { g with
          snake := Snake.new 2 2
          waiting_time := 0
          food_exists := true
          food_x := 6
          food_y := 4
          game_over := false } ∧
      (Snake.new 2 2).body = [Block.mk 4 2, Block.mk 3 2, Block.mk 2 2] ∧
      (Snake.new 2 2).direction = Direction.right := by
  have hne : ds ≠ [] := by
    intro h
    subst h
    simp only [List.sum_nil] at hsum
    rw [RESTART_TIME] at hsum
    linarith
  have hsum' : RESTART_TIME < g.waiting_time + ds.sum := by linarith
  obtain ⟨k, hk, hrun⟩ := restartAux ds g hgo hsum' hne
  exact ⟨k, hk, hrun, rfl, rfl⟩

/-- Witness for C7 at a 20 by 20 game flagged over and a single delta 2. -/
theorem c7_witness :
    ∃ k ≤ ([2] : List ℚ).length,
      overGame.updateSeq (([2] : List ℚ).take k) = some
        { overGame with
          snake := Snake.new 2 2
          waiting_time := 0
          food_exists := true
          food_x := 6
          food_y := 4
          game_over := false } ∧
      (Snake.new 2 2).body = [Block.mk 4 2, Block.mk 3 2, Block.mk 2 2] ∧
      (Snake.new 2 2).direction = Direction.right :=
  c7_gameover_restart overGame [2] rfl
    (by norm_num [overGame, Game.new]) (by norm_num [RESTART_TIME])

/-- C3 counterexample: calling `update (1/20)` ten times on a fresh
20 by 20 game does not leave the snake in place: the cumulative waiting time
exceeds `MOVING_PERIOD` on the third, sixth and ninth calls, so the head
ends at (7,2) instead of the initial (4,2). -/
theorem c3_counterexample :
    ((Game.new 20 20).updateSeq (List.replicate 10 (1/20))).map
        (fun g => g.snake.head_position) = some (some (7, 2)) ∧
    (Game.new 20 20).snake.head_position = some (4, 2) ∧
    (some (7, 2) : Option (Int × Int)) ≠ some (4, 2) := by
  have hrep : List.replicate 10 ((1:ℚ)/20) =
      [1/20, 1/20, 1/20, 1/20, 1/20, 1/20, 1/20, 1/20, 1/20, 1/20] := rfl
  have e1 : (Game.new 20 20).update (1/20) [] =
      some (midGame (Snake.new 2 2) (1/20)) := by
    rw [update_active_quiet (Game.new 20 20) (1/20) [] rfl rfl
      (by norm_num [Game.new, MOVING_PERIOD])]
    norm_num [Game.new, midGame]
  have e2 : (midGame (Snake.new 2 2) (1/20)).update (1/20) [] =
      some (midGame (Snake.new 2 2) (1/10)) := by
    rw [update_active_quiet (midGame (Snake.new 2 2) (1/20)) (1/20) [] rfl rfl
      (by norm_num [midGame, MOVING_PERIOD])]
    norm_num [midGame]
  have e3 : (midGame (Snake.new 2 2) (1/10)).update (1/20) [] =
      some (midGame (Snake.mk Direction.right
        [Block.mk 5 2, Block.mk 4 2, Block.mk 3 2] (some (Block.mk 2 2))) 0) := by
    rw [update_active_move (midGame (Snake.new 2 2) (1/10)) (1/20) [] rfl rfl
      (by norm_num [midGame, MOVING_PERIOD])]
    decide
  have e4 : (midGame (Snake.mk Direction.right
      [Block.mk 5 2, Block.mk 4 2, Block.mk 3 2] (some (Block.mk 2 2))) 0).update
        (1/20) [] =
      some (midGame (Snake.mk Direction.right
        [Block.mk 5 2, Block.mk 4 2, Block.mk 3 2] (some (Block.mk 2 2))) (1/20)) := by
    rw [update_active_quiet _ (1/20) [] rfl rfl (by norm_num [midGame, MOVING_PERIOD])]
    norm_num [midGame]
  have e5 : (midGame (Snake.mk Direction.right
      [Block.mk 5 2, Block.mk 4 2, Block.mk 3 2] (some (Block.mk 2 2))) (1/20)).update
        (1/20) [] =
      some (midGame (Snake.mk Direction.right
        [Block.mk 5 2, Block.mk 4 2, Block.mk 3 2] (some (Block.mk 2 2))) (1/10)) := by
    rw [update_active_quiet _ (1/20) [] rfl rfl (by norm_num [midGame, MOVING_PERIOD])]
    norm_num [midGame]
  have e6 : (midGame (Snake.mk Direction.right
      [Block.mk 5 2, Block.mk 4 2, Block.mk 3 2] (some (Block.mk 2 2))) (1/10)).update
        (1/20) [] =
      some (midGame (Snake.mk Direction.right
        [Block.mk 6 2, Block.mk 5 2, Block.mk 4 2] (some (Block.mk 3 2))) 0) := by
    rw [update_active_move _ (1/20) [] rfl rfl (by norm_num [midGame, MOVING_PERIOD])]
    decide
  have e7 : (midGame (Snake.mk Direction.right
      [Block.mk 6 2, Block.mk 5 2, Block.mk 4 2] (some (Block.mk 3 2))) 0).update
        (1/20) [] =
      some (midGame (Snake.mk Direction.right
        [Block.mk 6 2, Block.mk 5 2, Block.mk 4 2] (some (Block.mk 3 2))) (1/20)) := by
    rw [update_active_quiet _ (1/20) [] rfl rfl (by norm_num [midGame, MOVING_PERIOD])]
    norm_num [midGame]
  have e8 : (midGame (Snake.mk Direction.right
      [Block.mk 6 2, Block.mk 5 2, Block.mk 4 2] (some (Block.mk 3 2))) (1/20)).update
        (1/20) [] =
      some (midGame (Snake.mk Direction.right
        [Block.mk 6 2, Block.mk 5 2, Block.mk 4 2] (some (Block.mk 3 2))) (1/10)) := by
    rw [update_active_quiet _ (1/20) [] rfl rfl (by norm_num [midGame, MOVING_PERIOD])]
    norm_num [midGame]
  have e9 : (midGame (Snake.mk Direction.right
      [Block.mk 6 2, Block.mk 5 2, Block.mk 4 2] (some (Block.mk 3 2))) (1/10)).update
        (1/20) [] =
      some (midGame (Snake.mk Direction.right
        [Block.mk 7 2, Block.mk 6 2, Block.mk 5 2] (some (Block.mk 4 2))) 0) := by
    rw [update_active_move _ (1/20) [] rfl rfl (by norm_num [midGame, MOVING_PERIOD])]
    decide
  have e10 : (midGame (Snake.mk Direction.right
      [Block.mk 7 2, Block.mk 6 2, Block.mk 5 2] (some (Block.mk 4 2))) 0).update
        (1/20) [] =
      some (midGame (Snake.mk Direction.right
        [Block.mk 7 2, Block.mk 6 2, Block.mk 5 2] (some (Block.mk 4 2))) (1/20)) := by
    rw [update_active_quiet _ (1/20) [] rfl rfl (by norm_num [midGame, MOVING_PERIOD])]
    norm_num [midGame]
  refine ⟨?_, by decide, by decide⟩
  rw [hrep]
  simp only [Game.updateSeq, e1, e2, e3, e4, e5, e6, e7, e8, e9, e10]
  decide

/-- C3 (amended): while the game is active, an `update dt` whose accumulated
waiting time does not exceed `MOVING_PERIOD` (0.1) leaves the snake
unchanged; on `Game.new 20 20` the snake is still in place after two calls
of `update (1/20)` (cumulative exactly 0.1, not exceeding it), and the third
call (cumulative 0.15) moves the head from (4,2) to (5,2). -/
theorem c3_amended :
    (∀ (g : Game) (dt : ℚ) (samples : List (Int × Int)) (g2 : Game),
      g.game_over = false → g.waiting_time + dt ≤ MOVING_PERIOD →
      g.update dt samples = some g2 → g2.snake = g.snake) ∧
    (((Game.new 20 20).updateSeq [1/20, 1/20]).map
        (fun g => g.snake.head_position) = some (some (4, 2))) ∧
    (((Game.new 20 20).updateSeq [1/20, 1/20, 1/20]).map
        (fun g => g.snake.head_position) = some (some (5, 2))) := by
  refine ⟨?_, ?_, ?_⟩
  · intro g dt samples g2 hgo hle hupd
    have hle' : ¬(MOVING_PERIOD < g.waiting_time + dt) := not_lt.mpr hle
    cases hfood : g.food_exists with
    | true =>
      rw [update_active_quiet g dt samples hgo hfood hle'] at hupd
      injection hupd with h
      rw [← h]
    | false =>
      cases haf : ({ g with waiting_time := g.waiting_time + dt } : Game).add_food
          samples with
      | none =>
        rw [update_active_nofood_none g dt samples hgo hfood haf] at hupd
        simp at hupd
      | some g3 =>
        rw [update_active_nofood_quiet g dt samples g3 hgo hfood hle' haf] at hupd
        injection hupd with h
        rw [← h]
        exact (add_food_fields _ _ _ haf).1
  · have h1 := update_active_quiet (Game.new 20 20) (1/20) [] rfl rfl
      (by norm_num [Game.new, MOVING_PERIOD])
    have h2 := update_active_quiet
      { Game.new 20 20 with waiting_time := (Game.new 20 20).waiting_time + 1/20 }
      (1/20) [] rfl rfl (by norm_num [Game.new, MOVING_PERIOD])
    simp only [Game.updateSeq, h1, h2]
    decide
  · have h1 := update_active_quiet (Game.new 20 20) (1/20) [] rfl rfl
      (by norm_num [Game.new, MOVING_PERIOD])
    have h2 := update_active_quiet
      { Game.new 20 20 with waiting_time := (Game.new 20 20).waiting_time + 1/20 }
      (1/20) [] rfl rfl (by norm_num [Game.new, MOVING_PERIOD])
    have h3 := update_active_move
      { { Game.new 20 20 with waiting_time := (Game.new 20 20).waiting_time + 1/20 }
        with waiting_time :=
          ({ Game.new 20 20 with
              waiting_time := (Game.new 20 20).waiting_time + 1/20 } : Game).waiting_time
            + 1/20 }
      (1/20) [] rfl rfl (by norm_num [Game.new, MOVING_PERIOD])
    simp only [Game.updateSeq, h1, h2, h3]
    decide

/-- Witness for C3 (amended) at the fresh 20 by 20 game and one quiet step. -/
theorem c3_witness :
    ({ Game.new 20 20 with
        waiting_time := (Game.new 20 20).waiting_time + 1/20 } : Game).snake =
      (Game.new 20 20).snake :=
  c3_amended.1 (Game.new 20 20) (1/20) []
    { Game.new 20 20 with waiting_time := (Game.new 20 20).waiting_time + 1/20 }
    rfl (by norm_num [Game.new, MOVING_PERIOD])
    (update_active_quiet (Game.new 20 20) (1/20) [] rfl rfl
      (by norm_num [Game.new, MOVING_PERIOD]))

end SnakeGame
